import Mathlib

/-!
Shallow embedding of the Workout-Assessments core (src/app/crud.py,
src/app/schemas.py, src/app/routers) and proofs about it.

The persistent store is modelled as an explicit record of lists (table rows
in insertion order).  Machine integers are `Int`/`Nat`; SQL `NULL`able
columns are `Option`; timestamps are `Nat` values passed in explicitly as
`now` where the Python calls `datetime.utcnow()`.  Fallible operations
return `Except`: domain errors mirror src/app/exceptions.py, and `pyError`
models an uncaught Python runtime exception (e.g. comparing `None` with an
`int`).
-/

namespace Workout

/-- Row of the `users` table (src/app/models.py, class User). -/
structure User where
  id : Nat
  name : String
  email : Option String
  created_at : Nat
deriving Repr, DecidableEq

/-- Row of the `workout_sessions` table (src/app/models.py, class WorkoutSession). -/
structure WorkoutSession where
  id : Nat
  user_id : Nat
  started_at : Nat
  ended_at : Option Nat
  is_active : Bool
deriving Repr, DecidableEq

/-- Row of the `exercises` table (src/app/models.py, class Exercise).
`completed_reps` is nullable until logged. -/
structure Exercise where
  id : Nat
  session_id : Nat
  exercise_name : String
  assigned_reps : Int
  completed_reps : Option Int
  created_at : Nat
deriving Repr, DecidableEq

/-- Row of the `workout_recommendations` table (src/app/models.py,
class WorkoutRecommendation). -/
structure WorkoutRecommendation where
  id : Nat
  user_id : Nat
  next_recommended_reps : Int
  updated_at : Nat
deriving Repr, DecidableEq

/-- The store: one list per table (rows in insertion order) plus the
autoincrement counters for primary keys. -/
structure DB where
  users : List User
  sessions : List WorkoutSession
  exercises : List Exercise
  recommendations : List WorkoutRecommendation
  next_user_id : Nat
  next_session_id : Nat
  next_exercise_id : Nat
  next_recommendation_id : Nat
deriving Repr, DecidableEq

/-- Domain errors, mirroring src/app/exceptions.py. -/
inductive ApiError where
  | userNotFound (user_id : Nat)
  | sessionNotFound (session_id : Nat)
  | activeSessionExists (user_id : Nat) (active_session_id : Nat)
  | sessionNotActive (session_id : Nat)
  | exerciseNotLogged (session_id : Nat)
deriving Repr, DecidableEq

/-- Result of an operation that can fail with a domain error or crash with
an uncaught Python exception. -/
inductive OpErr where
  | api (e : ApiError)
  | pyError
deriving Repr, DecidableEq

/-- src/app/crud.py, `calculate_next_reps` (lines 19-40). -/
def calculate_next_reps (assigned_reps : Int) (completed_reps : Int) : Int :=
  let next_reps := if completed_reps ≥ assigned_reps then assigned_reps + 2
    else assigned_reps - 1
  max 1 next_reps

/-- `db.query(User).filter(User.id == user_id).first()`. -/
def findUser (db : DB) (user_id : Nat) : Option User :=
  db.users.find? (fun u => u.id == user_id)

/-- `db.query(WorkoutSession).filter(WorkoutSession.id == session_id).first()`. -/
def findSession (db : DB) (session_id : Nat) : Option WorkoutSession :=
  db.sessions.find? (fun s => s.id == session_id)

/-- The ORM relationship `session.exercise` (unique on `session_id`). -/
def findExercise (db : DB) (session_id : Nat) : Option Exercise :=
  db.exercises.find? (fun e => e.session_id == session_id)

/-- `db.query(WorkoutRecommendation).filter(user_id == ...).first()`. -/
def findRecommendation (db : DB) (user_id : Nat) : Option WorkoutRecommendation :=
  db.recommendations.find? (fun r => r.user_id == user_id)

/-- The active-session lookup in `create_workout_session` (crud.py 133-136). -/
def findActiveSession (db : DB) (user_id : Nat) : Option WorkoutSession :=
  db.sessions.find? (fun s => s.user_id == user_id && s.is_active)

/-- src/app/crud.py, `create_workout_session` (lines 122-157): check user,
check for an active session, then insert the session and its exercise in a
single commit. -/
def create_workout_session (db : DB) (now : Nat) (user_id : Nat)
    (assigned_reps : Int) (exercise_name : String) :
    Except ApiError (DB × WorkoutSession) :=
  match findUser db user_id with
  | none => .error (.userNotFound user_id)
  | some _ =>
    match findActiveSession db user_id with
    | some active_session =>
      .error (.activeSessionExists user_id active_session.id)
    | none =>
      let s : WorkoutSession :=
        { id := db.next_session_id, user_id := user_id, started_at := now
          ended_at := none, is_active := true }
      let e : Exercise :=
        { id := db.next_exercise_id, session_id := s.id
          exercise_name := exercise_name, assigned_reps := assigned_reps
          completed_reps := none, created_at := now }
      .ok ({ db with
              sessions := db.sessions ++ [s]
              exercises := db.exercises ++ [e]
              next_session_id := db.next_session_id + 1
              next_exercise_id := db.next_exercise_id + 1 }, s)

/-- Errors of the full start-session request: pydantic validation
(schemas.py, `WorkoutSessionCreate`, `assigned_reps` with `gt=0`) happens
before the crud layer runs. -/
inductive StartErr where
  | validation
  | api (e : ApiError)
deriving Repr, DecidableEq

/-- The start-session operation as exposed by the route
(src/app/routers/workouts.py, `start_workout`): request-body validation of
`assigned_reps > 0` (schemas.py line 51), then `crud.create_workout_session`. -/
def startSession (db : DB) (now : Nat) (user_id : Nat)
    (assigned_reps : Int) (exercise_name : String) :
    Except StartErr (DB × WorkoutSession) :=
  if assigned_reps ≤ 0 then .error .validation
  else
    match create_workout_session db now user_id assigned_reps exercise_name with
    | .error e => .error (.api e)
    | .ok r => .ok r

/-- src/app/crud.py, `log_exercise` (lines 212-225): look up the session,
require it active, overwrite the exercise's `completed_reps`.  A missing
exercise row would make `session.exercise.completed_reps = ...` raise an
AttributeError on `None`, modelled as `pyError`. -/
def log_exercise (db : DB) (session_id : Nat) (completed_reps : Int) :
    Except OpErr (DB × WorkoutSession) :=
  match findSession db session_id with
  | none => .error (.api (.sessionNotFound session_id))
  | some s =>
    if !s.is_active then .error (.api (.sessionNotActive session_id))
    else
      match findExercise db session_id with
      | none => .error .pyError
      | some _ =>
        .ok ({ db with
                exercises := db.exercises.map (fun e =>
                  if e.session_id == session_id then
                    { e with completed_reps := some completed_reps }
                  else e) }, s)

/-- Overwrite the first recommendation row with matching `user_id`
(the ORM mutates the object returned by `.first()`). -/
def updateFirstRecommendation :
    List WorkoutRecommendation → Nat → Int → Nat → List WorkoutRecommendation
  | [], _, _, _ => []
  | r :: rs, uid, n, now =>
    if r.user_id == uid then
      { r with next_recommended_reps := n, updated_at := now } :: rs
    else r :: updateFirstRecommendation rs uid n now

/-- src/app/crud.py, `end_workout_session` (lines 228-267): look up the
session, require it active, require `completed_reps` logged; then set
`ended_at`, flip `is_active`, compute `calculate_next_reps` and upsert the
user's recommendation, all in one commit; return the updated session and
the computed next reps. -/
def end_workout_session (db : DB) (now : Nat) (session_id : Nat) :
    Except OpErr (DB × WorkoutSession × Int) :=
  match findSession db session_id with
  | none => .error (.api (.sessionNotFound session_id))
  | some s =>
    if !s.is_active then .error (.api (.sessionNotActive session_id))
    else
      match findExercise db session_id with
      | none => .error .pyError
      | some ex =>
        match ex.completed_reps with
        | none => .error (.api (.exerciseNotLogged session_id))
        | some cr =>
          let next_reps := calculate_next_reps ex.assigned_reps cr
          let s' : WorkoutSession := { s with ended_at := some now, is_active := false }
          let sessions' := db.sessions.map (fun t =>
            if t.id == session_id then { t with ended_at := some now, is_active := false }
            else t)
          match findRecommendation db s.user_id with
          | some _ =>
            .ok ({ db with
                    sessions := sessions'
                    recommendations :=
                      updateFirstRecommendation db.recommendations s.user_id next_reps now },
                  s', next_reps)
          | none =>
            .ok ({ db with
                    sessions := sessions'
                    recommendations := db.recommendations ++
                      [{ id := db.next_recommendation_id, user_id := s.user_id
                         next_recommended_reps := next_reps, updated_at := now }]
                    next_recommendation_id := db.next_recommendation_id + 1 },
                  s', next_reps)

/-- All of a user's ended sessions, in table order
(`filter(user_id == ..., is_active == False)`). -/
def endedSessions (db : DB) (user_id : Nat) : List WorkoutSession :=
  db.sessions.filter (fun s => s.user_id == user_id && !s.is_active)

/-- `ORDER BY key DESC ... .first()`: the first row with maximal key
(earlier rows win ties, modelling a stable descending sort). -/
def selectFirst (key : WorkoutSession → Int) :
    List WorkoutSession → Option WorkoutSession
  | [] => none
  | s :: l =>
    match selectFirst key l with
    | none => some s
    | some b => if key s ≥ key b then some s else some b

/-- Sort key for `desc(WorkoutSession.ended_at)`: SQL `NULL` sorts below
every timestamp. -/
def endedKey (s : WorkoutSession) : Int :=
  match s.ended_at with
  | none => -1
  | some t => (t : Int)

/-- The `last_session` query of `get_recommendation` (crud.py 283-288):
ended sessions of the user ordered by `ended_at` descending, first row. -/
def lastEndedSession (db : DB) (user_id : Nat) : Option WorkoutSession :=
  selectFirst endedKey (endedSessions db user_id)

/-- The `first_session` query of `get_recommendation` (crud.py 321-326):
ended sessions of the user ordered by `started_at` ascending, first row. -/
def firstEndedSession (db : DB) (user_id : Nat) : Option WorkoutSession :=
  selectFirst (fun s => -((s.started_at : Int))) (endedSessions db user_id)

/-- The view returned by `get_recommendation` (crud.py 332-341), flattened:
the fields the claims are about. -/
structure RecommendationView where
  recommended_reps : Int
  reason : String
  trend : String
  total_increase : Int
  sessions_count : Nat
deriving Repr, DecidableEq

/-- The `recommended_reps` block of `get_recommendation` (crud.py 296-306):
stored recommendation, else `calculate_next_reps` of the last ended
session's exercise, else 10.  Comparing an unlogged `completed_reps`
(`None`) with an `int` inside `calculate_next_reps` raises a TypeError,
modelled as `pyError`. -/
def recommendedValue (db : DB) (user_id : Nat) : Except OpErr Int :=
  match findRecommendation db user_id with
  | some r => .ok r.next_recommended_reps
  | none =>
    match (lastEndedSession db user_id).bind (fun s => findExercise db s.id) with
    | some ex =>
      match ex.completed_reps with
      | some cr => .ok (calculate_next_reps ex.assigned_reps cr)
      | none => .error .pyError
    | none => .ok 10

/-- The reason/trend block of `get_recommendation` (crud.py 308-318).
Comparing an unlogged `completed_reps` (`None`) with an `int` raises a
TypeError, modelled as `pyError`. -/
def reasonTrend (db : DB) (user_id : Nat) : Except OpErr (String × String) :=
  match (lastEndedSession db user_id).bind (fun s => findExercise db s.id) with
  | some ex =>
    match ex.completed_reps with
    | some cr =>
      if cr ≥ ex.assigned_reps then
        .ok ("Completed all reps in last session", "improving")
      else
        .ok ("Did not complete all reps in last session", "adjusting")
    | none => .error .pyError
  | none => .ok ("Starting recommendation", "new")

/-- The `total_increase` block of `get_recommendation` (crud.py 320-330):
recommended reps minus the assigned reps of the first ended session's
exercise, 0 when there is none. -/
def totalIncrease (db : DB) (user_id : Nat) (recommended_reps : Int) : Int :=
  match (firstEndedSession db user_id).bind (fun s => findExercise db s.id) with
  | some ex => recommended_reps - ex.assigned_reps
  | none => 0

/-- src/app/crud.py, `get_recommendation` (lines 272-341): verify the user
exists, then assemble the view from the blocks above, in source order. -/
def get_recommendation (db : DB) (user_id : Nat) :
    Except OpErr RecommendationView :=
  match findUser db user_id with
  | none => .error (.api (.userNotFound user_id))
  | some _ =>
    match recommendedValue db user_id with
    | .error e => .error e
    | .ok recommended_reps =>
      match reasonTrend db user_id with
      | .error e => .error e
      | .ok (reason, trend) =>
        .ok { recommended_reps := recommended_reps
              reason := reason
              trend := trend
              total_increase := totalIncrease db user_id recommended_reps
              sessions_count := (endedSessions db user_id).length }

/-- The pagination block of the list endpoints
(src/app/routers/users.py 89 and workouts.py 85): `limit = min(limit, 100)`. -/
def effectiveLimit (limit : Int) : Int :=
  min limit 100

/-- The pagination metadata of the list endpoints
(src/app/routers/users.py 107 and workouts.py 121):
`total_pages = math.ceil(total / limit) if total > 0 else 1`. -/
def totalPages (total : Nat) (limit : Nat) : Nat :=
  if total > 0 then (total + limit - 1) / limit else 1

/-- Well-formedness of a store state used by the read-path claims: every
ended session whose exercise row exists has its `completed_reps` logged.
Every state reachable through the operations satisfies this, because
`end_workout_session` refuses to end a session whose exercise is not
logged. -/
def exercisesLogged (db : DB) : Bool :=
  db.sessions.all (fun s => s.is_active ||
    (match findExercise db s.id with
     | some e => e.completed_reps.isSome
     | none => true))

/-- All of a user's sessions, in table order. -/
def userSessions (db : DB) (user_id : Nat) : List WorkoutSession :=
  db.sessions.filter (fun s => s.user_id == user_id)

/-- All of a user's active sessions, in table order. -/
def activeSessions (db : DB) (user_id : Nat) : List WorkoutSession :=
  db.sessions.filter (fun s => s.user_id == user_id && s.is_active)

/-- The single-active-session invariant: every user has at most one session
with `is_active = true`. -/
def OneActivePerUser (db : DB) : Prop :=
  ∀ user_id : Nat, (activeSessions db user_id).length ≤ 1

/-- The transactional semantics of the start-session request: on any error
nothing is committed and the store is unchanged. -/
def startSessionRun (db : DB) (now : Nat) (user_id : Nat) (assigned_reps : Int)
    (exercise_name : String) : DB × Except StartErr WorkoutSession :=
  match startSession db now user_id assigned_reps exercise_name with
  | .error e => (db, .error e)
  | .ok (db', s) => (db', .ok s)

/-- The transactional semantics of the end-session request: on any error
nothing is committed and the store is unchanged. -/
def endSessionRun (db : DB) (now : Nat) (session_id : Nat) :
    DB × Except OpErr (WorkoutSession × Int) :=
  match end_workout_session db now session_id with
  | .error e => (db, .error e)
  | .ok (db', s, n) => (db', .ok (s, n))

/-! ### Facts about `selectFirst` -/

theorem selectFirst_eq_none_iff (key : WorkoutSession → Int)
    (l : List WorkoutSession) : selectFirst key l = none ↔ l = [] := by
  cases l with
  | nil => simp [selectFirst]
  | cons s l =>
    simp only [selectFirst]
    constructor
    · intro h
      cases hrec : selectFirst key l with
      | none => rw [hrec] at h; simp at h
      | some b => rw [hrec] at h; by_cases hk : key s ≥ key b <;> simp [hk] at h
    · intro h; cases h

theorem selectFirst_mem (key : WorkoutSession → Int) (l : List WorkoutSession)
    (s : WorkoutSession) (h : selectFirst key l = some s) : s ∈ l := by
  induction l with
  | nil => simp [selectFirst] at h
  | cons x xs ih =>
    simp only [selectFirst] at h
    cases hrec : selectFirst key xs with
    | none => rw [hrec] at h; cases h; exact List.mem_cons_self _ _
    | some b =>
      rw [hrec] at h
      by_cases hk : key x ≥ key b
      · simp [hk] at h; cases h; exact List.mem_cons_self _ _
      · simp [hk] at h; cases h; exact List.mem_cons_of_mem _ (ih hrec)

theorem selectFirst_is_max (key : WorkoutSession → Int) (l : List WorkoutSession)
    (s : WorkoutSession) (h : selectFirst key l = some s) :
    ∀ t ∈ l, key t ≤ key s := by
  induction l generalizing s with
  | nil => simp [selectFirst] at h
  | cons x xs ih =>
    intro t ht
    simp only [selectFirst] at h
    cases hrec : selectFirst key xs with
    | none =>
      rw [hrec] at h
      cases h
      rcases List.mem_cons.mp ht with h' | h'
      · cases h'; exact le_refl _
      · exact absurd hrec ((not_iff_not.mpr (selectFirst_eq_none_iff key xs)).mpr
          (List.ne_nil_of_mem h') ∘ Eq.symm ∘ Eq.symm)
    | some b =>
      rw [hrec] at h
      by_cases hk : key x ≥ key b
      · simp [hk] at h
        cases h
        rcases List.mem_cons.mp ht with h' | h'
        · cases h'; exact le_refl _
        · exact le_trans (ih b hrec t h') hk
      · simp [hk] at h
        cases h
        rcases List.mem_cons.mp ht with h' | h'
        · cases h'; exact le_of_not_ge hk
        · exact ih s hrec t h'

theorem mem_endedSessions (db : DB) (uid : Nat) (s : WorkoutSession) :
    s ∈ endedSessions db uid ↔
      s ∈ db.sessions ∧ s.user_id = uid ∧ s.is_active = false := by
  simp [endedSessions, List.mem_filter]

theorem lastEndedSession_mem (db : DB) (uid : Nat) (s : WorkoutSession)
    (h : lastEndedSession db uid = some s) :
    s ∈ db.sessions ∧ s.user_id = uid ∧ s.is_active = false :=
  (mem_endedSessions db uid s).mp (selectFirst_mem _ _ _ h)

theorem firstEndedSession_mem (db : DB) (uid : Nat) (s : WorkoutSession)
    (h : firstEndedSession db uid = some s) :
    s ∈ db.sessions ∧ s.user_id = uid ∧ s.is_active = false :=
  (mem_endedSessions db uid s).mp (selectFirst_mem _ _ _ h)

/-- Under `exercisesLogged`, the exercise of any ended session in the store
has its completed reps set. -/
theorem completed_isSome_of_ended (db : DB) (hwf : exercisesLogged db = true)
    (s : WorkoutSession) (hs : s ∈ db.sessions) (hact : s.is_active = false)
    (ex : Exercise) (hex : findExercise db s.id = some ex) :
    ex.completed_reps.isSome := by
  have h := List.all_eq_true.mp hwf s hs
  rw [hact, hex] at h
  simpa using h

/-! ### Concrete sample stores -/

/-- A fresh, empty store. -/
def emptyDB : DB :=
  { users := [], sessions := [], exercises := [], recommendations := []
    next_user_id := 1, next_session_id := 1, next_exercise_id := 1
    next_recommendation_id := 1 }

/-- A store with one user and no sessions. -/
def dbOneUser : DB :=
  { emptyDB with users := [{ id := 1, name := "alice", email := none, created_at := 0 }] }

/-- `dbOneUser` after starting a session with 10 assigned reps at time 5. -/
def dbStarted : DB :=
  { dbOneUser with
    sessions := [{ id := 1, user_id := 1, started_at := 5, ended_at := none
                   is_active := true }]
    exercises := [{ id := 1, session_id := 1, exercise_name := "Push-ups"
                    assigned_reps := 10, completed_reps := none, created_at := 5 }]
    next_session_id := 2, next_exercise_id := 2 }

/-- `dbStarted` after logging 10 completed reps. -/
def dbLogged : DB :=
  { dbStarted with
    exercises := [{ id := 1, session_id := 1, exercise_name := "Push-ups"
                    assigned_reps := 10, completed_reps := some 10, created_at := 5 }] }

/-- `dbLogged` after ending the session at time 20. -/
def dbEnded : DB :=
  { dbLogged with
    sessions := [{ id := 1, user_id := 1, started_at := 5, ended_at := some 20
                   is_active := false }]
    recommendations := [{ id := 1, user_id := 1, next_recommended_reps := 12
                          updated_at := 20 }]
    next_recommendation_id := 2 }

/-! ### Claim theorems -/

/-- C1: for all integers `a > 0` and `c ≥ 0`, `calculate_next_reps a c`
equals `max 1 (if c ≥ a then a + 2 else a - 1)`, so the result is `a + 2`
when `c ≥ a` and `a - 1` otherwise, floored at 1 in both branches. -/
theorem C1_nextReps_formula (a c : Int) (ha : 0 < a) (hc : 0 ≤ c) :
    calculate_next_reps a c = max 1 (if c ≥ a then a + 2 else a - 1) ∧
    (c ≥ a → calculate_next_reps a c = max 1 (a + 2)) ∧
    (c < a → calculate_next_reps a c = max 1 (a - 1)) ∧
    1 ≤ calculate_next_reps a c := by
  refine ⟨rfl, ?_, ?_, le_max_left 1 _⟩
  · intro h; simp [calculate_next_reps, h]
  · intro h; simp [calculate_next_reps, not_le.mpr h]

/-- Witness for C1 at `a = 10`, `c = 5`. -/
theorem C1_nextReps_formula_witness :
    (0 : Int) < 10 ∧ (0 : Int) ≤ 5 ∧
    (calculate_next_reps 10 5 = max 1 (if (5 : Int) ≥ 10 then 10 + 2 else 10 - 1) ∧
     ((5 : Int) ≥ 10 → calculate_next_reps 10 5 = max 1 (10 + 2)) ∧
     ((5 : Int) < 10 → calculate_next_reps 10 5 = max 1 (10 - 1)) ∧
     1 ≤ calculate_next_reps 10 5) :=
  ⟨by decide, by decide, C1_nextReps_formula 10 5 (by decide) (by decide)⟩

/-- C8: the effective page size of the list endpoints is clamped to the
configured maximum of 100, and `totalPages` is the ceiling of
`total / pageSize` with a floor of one page when `total = 0`; in
particular 45 items at page size 20 give 3 pages and 0 items give 1 page. -/
theorem C8_pagination_formula (limit : Int) (total pageSize : Nat)
    (hp : 0 < pageSize) :
    effectiveLimit limit ≤ 100 ∧
    (limit ≤ 100 → effectiveLimit limit = limit) ∧
    (0 < total → totalPages total pageSize = total ⌈/⌉ pageSize) ∧
    totalPages 0 pageSize = 1 ∧
    totalPages 45 20 = 3 := by
  refine ⟨min_le_right _ _, ?_, ?_, by simp [totalPages], by decide⟩
  · intro h; simpa [effectiveLimit] using h
  · intro ht; simp only [totalPages, ht, if_pos]; rfl

/-- Witness for C8 at `limit = 20`, `total = 45`, `pageSize = 20`. -/
theorem C8_pagination_formula_witness :
    0 < 20 ∧
    (effectiveLimit 20 ≤ 100 ∧
     ((20 : Int) ≤ 100 → effectiveLimit 20 = 20) ∧
     (0 < 45 → totalPages 45 20 = 45 ⌈/⌉ 20) ∧
     totalPages 0 20 = 1 ∧
     totalPages 45 20 = 3) :=
  ⟨by decide, C8_pagination_formula 20 45 20 (by decide)⟩

/-- C3: `end_workout_session` fails with NotFound when the session does not
exist, with Conflict SessionNotActive when it exists but is inactive, and
with Conflict ExerciseNotLogged when it is active but its exercise's
completed reps are unset — for every value of `now`, i.e. regardless of
elapsed time; when all three preconditions hold it succeeds, returning the
session with `ended_at` set to `now` and `is_active` flipped to false,
together with the computed next recommended reps. -/
theorem C3_endSession_preconditions (db : DB) (now session_id : Nat) :
    (findSession db session_id = none →
       end_workout_session db now session_id =
         .error (.api (.sessionNotFound session_id))) ∧
    (∀ s, findSession db session_id = some s → s.is_active = false →
       end_workout_session db now session_id =
         .error (.api (.sessionNotActive session_id))) ∧
    (∀ s ex, findSession db session_id = some s → s.is_active = true →
       findExercise db session_id = some ex → ex.completed_reps = none →
       end_workout_session db now session_id =
         .error (.api (.exerciseNotLogged session_id))) ∧
    (∀ s ex cr, findSession db session_id = some s → s.is_active = true →
       findExercise db session_id = some ex → ex.completed_reps = some cr →
       ∃ db', end_workout_session db now session_id =
         .ok (db', { s with ended_at := some now, is_active := false },
              calculate_next_reps ex.assigned_reps cr)) := by
  refine ⟨?_, ?_, ?_, ?_⟩
  · intro h
    simp [end_workout_session, h]
  · intro s hs hact
    simp [end_workout_session, hs, hact]
  · intro s ex hs hact hex hcr
    simp [end_workout_session, hs, hact, hex, hcr]
  · intro s ex cr hs hact hex hcr
    cases hrec : findRecommendation db s.user_id with
    | some r =>
      refine ⟨{ db with
          sessions := db.sessions.map (fun t =>
            if t.id == session_id then
              { t with ended_at := some now, is_active := false }
            else t)
          recommendations := updateFirstRecommendation db.recommendations
            s.user_id (calculate_next_reps ex.assigned_reps cr) now }, ?_⟩
      simp [end_workout_session, hs, hact, hex, hcr, hrec]
    | none =>
      refine ⟨{ db with
          sessions := db.sessions.map (fun t =>
            if t.id == session_id then
              { t with ended_at := some now, is_active := false }
            else t)
          recommendations := db.recommendations ++
            [{ id := db.next_recommendation_id, user_id := s.user_id
               next_recommended_reps := calculate_next_reps ex.assigned_reps cr
               updated_at := now }]
          next_recommendation_id := db.next_recommendation_id + 1 }, ?_⟩
      simp [end_workout_session, hs, hact, hex, hcr, hrec]

/-- Witness for C3: ending the logged session of `dbLogged` at time 20
succeeds with next recommended reps `calculate_next_reps 10 10 = 12`. -/
theorem C3_endSession_preconditions_witness :
    ∃ db', end_workout_session dbLogged 20 1 =
      .ok (db', { id := 1, user_id := 1, started_at := 5, ended_at := some 20
                  is_active := false },
           calculate_next_reps 10 10) :=
  (C3_endSession_preconditions dbLogged 20 1).2.2.2
    { id := 1, user_id := 1, started_at := 5, ended_at := none, is_active := true }
    { id := 1, session_id := 1, exercise_name := "Push-ups", assigned_reps := 10
      completed_reps := some 10, created_at := 5 }
    10 (by decide) rfl (by decide) rfl

/-- C4: the start-session request fails with a Validation error when
`assigned_reps` is not positive, with NotFound when the user does not
exist, and with Conflict ActiveSessionExists — carrying the id of the
conflicting active session of that user — when an active session already
exists; otherwise it creates a new active session whose paired exercise
has the assigned reps and name but no completed reps. -/
theorem C4_startSession_preconditions (db : DB) (now user_id : Nat)
    (assigned_reps : Int) (exercise_name : String) :
    (assigned_reps ≤ 0 →
       startSession db now user_id assigned_reps exercise_name =
         .error .validation) ∧
    (0 < assigned_reps → findUser db user_id = none →
       startSession db now user_id assigned_reps exercise_name =
         .error (.api (.userNotFound user_id))) ∧
    (0 < assigned_reps → (findUser db user_id).isSome →
       ∀ a, findActiveSession db user_id = some a →
         a ∈ db.sessions ∧ a.user_id = user_id ∧ a.is_active = true ∧
         startSession db now user_id assigned_reps exercise_name =
           .error (.api (.activeSessionExists user_id a.id))) ∧
    (0 < assigned_reps → (findUser db user_id).isSome →
       findActiveSession db user_id = none →
       ∃ db' s, startSession db now user_id assigned_reps exercise_name =
           .ok (db', s) ∧
         s.is_active = true ∧ s.user_id = user_id ∧ s.ended_at = none ∧
         ∃ e ∈ db'.exercises, e.session_id = s.id ∧ e.completed_reps = none ∧
           e.assigned_reps = assigned_reps ∧ e.exercise_name = exercise_name) := by
  refine ⟨?_, ?_, ?_, ?_⟩
  · intro h
    simp [startSession, h]
  · intro hpos hu
    simp [startSession, create_workout_session, hu, not_le.mpr hpos]
  · intro hpos hu a ha
    obtain ⟨u, hu'⟩ := Option.isSome_iff_exists.mp hu
    have hp := List.find?_some ha
    simp only [Bool.and_eq_true, beq_iff_eq] at hp
    refine ⟨List.mem_of_find?_eq_some ha, hp.1, hp.2, ?_⟩
    simp [startSession, create_workout_session, hu', ha, not_le.mpr hpos]
  · intro hpos hu hact
    obtain ⟨u, hu'⟩ := Option.isSome_iff_exists.mp hu
    refine ⟨{ db with
        sessions := db.sessions ++
          [{ id := db.next_session_id, user_id := user_id, started_at := now
             ended_at := none, is_active := true }]
        exercises := db.exercises ++
          [{ id := db.next_exercise_id, session_id := db.next_session_id
             exercise_name := exercise_name, assigned_reps := assigned_reps
             completed_reps := none, created_at := now }]
        next_session_id := db.next_session_id + 1
        next_exercise_id := db.next_exercise_id + 1 },
      { id := db.next_session_id, user_id := user_id, started_at := now
        ended_at := none, is_active := true }, ?_, rfl, rfl, rfl, ?_⟩
    · simp [startSession, create_workout_session, hu', hact, not_le.mpr hpos]
    · exact ⟨_, List.mem_append_right _ (List.mem_singleton_self _), rfl, rfl, rfl, rfl⟩

/-- Witness for C4: starting a second session in `dbStarted` conflicts,
carrying the active session's id 1. -/
theorem C4_startSession_preconditions_witness :
    (0 : Int) < 8 ∧ (findUser dbStarted 1).isSome ∧
    ({ id := 1, user_id := 1, started_at := 5, ended_at := none
       is_active := true } : WorkoutSession) ∈ dbStarted.sessions ∧
    startSession dbStarted 6 1 8 "Sit-ups" =
      .error (.api (.activeSessionExists 1 1)) := by
  have h := ((C4_startSession_preconditions dbStarted 6 1 8 "Sit-ups").2.2.1
    (by decide) (by decide)
    { id := 1, user_id := 1, started_at := 5, ended_at := none, is_active := true }
    (by decide))
  exact ⟨by decide, by decide, h.1, h.2.2.2⟩

/-! ### Inversion facts for the state-changing operations -/

theorem create_workout_session_ok_inv (db : DB) (now uid : Nat) (reps : Int)
    (name : String) (db' : DB) (s : WorkoutSession)
    (h : create_workout_session db now uid reps name = .ok (db', s)) :
    findActiveSession db uid = none ∧
    s = { id := db.next_session_id, user_id := uid, started_at := now
          ended_at := none, is_active := true } ∧
    db'.sessions = db.sessions ++ [s] ∧
    db'.exercises = db.exercises ++
      [{ id := db.next_exercise_id, session_id := s.id, exercise_name := name
         assigned_reps := reps, completed_reps := none, created_at := now }] := by
  unfold create_workout_session at h
  split at h
  · cases h
  split at h
  · cases h
  next hfa =>
    simp only [Except.ok.injEq, Prod.mk.injEq] at h
    obtain ⟨hdb, hs⟩ := h
    subst hdb
    subst hs
    exact ⟨hfa, rfl, rfl, rfl⟩

theorem startSession_ok_inv (db : DB) (now uid : Nat) (reps : Int)
    (name : String) (db' : DB) (s : WorkoutSession)
    (h : startSession db now uid reps name = .ok (db', s)) :
    findActiveSession db uid = none ∧
    s = { id := db.next_session_id, user_id := uid, started_at := now
          ended_at := none, is_active := true } ∧
    db'.sessions = db.sessions ++ [s] ∧
    db'.exercises = db.exercises ++
      [{ id := db.next_exercise_id, session_id := s.id, exercise_name := name
         assigned_reps := reps, completed_reps := none, created_at := now }] := by
  unfold startSession at h
  split at h
  · cases h
  split at h
  · cases h
  next r hok =>
    simp only [Except.ok.injEq] at h
    subst h
    exact create_workout_session_ok_inv db now uid reps name db' s hok

theorem log_exercise_ok_inv (db : DB) (sid : Nat) (cr : Int) (db' : DB)
    (s : WorkoutSession) (h : log_exercise db sid cr = .ok (db', s)) :
    db'.sessions = db.sessions ∧
    findSession db sid = some s ∧ s.is_active = true := by
  unfold log_exercise at h
  split at h
  · cases h
  next s0 hfs =>
    split at h
    · cases h
    next hact =>
      split at h
      · cases h
      simp only [Except.ok.injEq, Prod.mk.injEq] at h
      obtain ⟨hdb, hs⟩ := h
      subst hdb
      subst hs
      simp only [Bool.not_eq_true', Bool.not_eq_false] at hact
      exact ⟨rfl, hfs, hact⟩

theorem end_workout_session_ok_inv (db : DB) (now sid : Nat) (db' : DB)
    (s : WorkoutSession) (n : Int)
    (h : end_workout_session db now sid = .ok (db', s, n)) :
    ∃ s0 ex cr, findSession db sid = some s0 ∧ s0.is_active = true ∧
      findExercise db sid = some ex ∧ ex.completed_reps = some cr ∧
      n = calculate_next_reps ex.assigned_reps cr ∧
      s = { s0 with ended_at := some now, is_active := false } ∧
      db'.sessions = db.sessions.map (fun t =>
        if t.id == sid then { t with ended_at := some now, is_active := false }
        else t) ∧
      (∀ r, findRecommendation db s0.user_id = some r →
         db'.recommendations =
           updateFirstRecommendation db.recommendations s0.user_id n now) ∧
      (findRecommendation db s0.user_id = none →
         db'.recommendations = db.recommendations ++
           [{ id := db.next_recommendation_id, user_id := s0.user_id
              next_recommended_reps := n, updated_at := now }]) := by
  unfold end_workout_session at h
  split at h
  · cases h
  next s0 hfs =>
    split at h
    · cases h
    next hact =>
      split at h
      · cases h
      next ex hex =>
        split at h
        · cases h
        next cr hcr =>
          simp only [Bool.not_eq_true', Bool.not_eq_false] at hact
          split at h
          next r hrec =>
            simp only [Except.ok.injEq, Prod.mk.injEq] at h
            obtain ⟨hdb, hs, hn⟩ := h
            subst hdb
            subst hs
            subst hn
            refine ⟨s0, ex, cr, hfs, hact, hex, hcr, rfl, rfl, rfl, ?_, ?_⟩
            · intro r' hr'
              rfl
            · intro hc
              rw [hc] at hrec
              cases hrec
          next hrec =>
            simp only [Except.ok.injEq, Prod.mk.injEq] at h
            obtain ⟨hdb, hs, hn⟩ := h
            subst hdb
            subst hs
            subst hn
            refine ⟨s0, ex, cr, hfs, hact, hex, hcr, rfl, rfl, rfl, ?_, ?_⟩
            · intro r' hr'
              rw [hr'] at hrec
              cases hrec
            · intro _
              rfl

theorem length_filter_map_le (p : WorkoutSession → Bool)
    (f : WorkoutSession → WorkoutSession)
    (hf : ∀ t, p (f t) = true → f t = t) (l : List WorkoutSession) :
    ((l.map f).filter p).length ≤ (l.filter p).length := by
  induction l with
  | nil => simp
  | cons x xs ih =>
    simp only [List.map_cons, List.filter_cons]
    by_cases hx : p (f x) = true
    · have hfx := hf x hx
      rw [hfx]
      rw [hfx] at hx
      simp only [hx, if_true, List.length_cons]
      exact Nat.succ_le_succ ih
    · simp only [Bool.not_eq_true] at hx
      rw [hx]
      by_cases hx2 : p x = true
      · simp only [hx2, if_true, List.length_cons]
        exact Nat.le_trans ih (Nat.le_succ _)
      · simp only [Bool.not_eq_true] at hx2
        rw [hx2]
        exact ih

/-- C5: the single-active-session invariant — every user has at most one
session with `is_active = true` — is preserved by every successful public
state-changing operation: start, log, and end. -/
theorem C5_single_active_preserved (db : DB) (h : OneActivePerUser db) :
    (∀ now uid reps name db' s,
       startSession db now uid reps name = .ok (db', s) →
       OneActivePerUser db') ∧
    (∀ sid reps db' s,
       log_exercise db sid reps = .ok (db', s) → OneActivePerUser db') ∧
    (∀ now sid db' s n,
       end_workout_session db now sid = .ok (db', s, n) →
       OneActivePerUser db') := by
  refine ⟨?_, ?_, ?_⟩
  · intro now uid reps name db' s hok
    obtain ⟨hact, hs, hsess, -⟩ := startSession_ok_inv _ _ _ _ _ _ _ hok
    intro u
    rw [OneActivePerUser] at h
    rw [activeSessions, hsess, List.filter_append]
    by_cases hu : u = uid
    · subst hu
      have hnil : db.sessions.filter (fun t => t.user_id == u && t.is_active) = [] := by
        rw [List.filter_eq_nil_iff]
        intro t ht
        have := List.find?_eq_none.mp hact t ht
        simpa using this
      rw [show (fun t : WorkoutSession => t.user_id == u && t.is_active) =
            (fun t : WorkoutSession => t.user_id == u && t.is_active) from rfl, hnil]
      subst hs
      simp
    · have hone := h u
      rw [activeSessions] at hone
      subst hs
      have : List.filter (fun t : WorkoutSession => t.user_id == u && t.is_active)
          [{ id := db.next_session_id, user_id := uid, started_at := now
             ended_at := none, is_active := true }] = [] := by
        simp [Ne.symm hu]
      rw [this, List.append_nil]
      exact hone
  · intro sid reps db' s hok
    obtain ⟨hsess, -, -⟩ := log_exercise_ok_inv _ _ _ _ _ hok
    intro u
    rw [activeSessions, hsess]
    exact h u
  · intro now sid db' s n hok
    obtain ⟨s0, ex, cr, -, -, -, -, -, -, hsess, -, -⟩ :=
      end_workout_session_ok_inv _ _ _ _ _ _ hok
    intro u
    rw [activeSessions, hsess]
    refine Nat.le_trans (length_filter_map_le _ _ ?_ _) (h u)
    intro t hpt
    by_cases hid : (t.id == sid) = true
    · simp only [hid, if_true] at hpt
      simp at hpt
    · simp [hid]

/-- Witness for C5: the empty store satisfies the invariant, so every
operation on it preserves it. -/
theorem C5_single_active_preserved_witness :
    (∀ now uid reps name db' s,
       startSession emptyDB now uid reps name = .ok (db', s) →
       OneActivePerUser db') ∧
    (∀ sid reps db' s,
       log_exercise emptyDB sid reps = .ok (db', s) → OneActivePerUser db') ∧
    (∀ now sid db' s n,
       end_workout_session emptyDB now sid = .ok (db', s, n) →
       OneActivePerUser db') :=
  C5_single_active_preserved emptyDB (fun u => by simp [activeSessions, emptyDB])

theorem updateFirstRecommendation_find? (recs : List WorkoutRecommendation)
    (uid : Nat) (n : Int) (now : Nat) (r0 : WorkoutRecommendation)
    (h : recs.find? (fun r => r.user_id == uid) = some r0) :
    (updateFirstRecommendation recs uid n now).find?
        (fun r => r.user_id == uid) =
      some { r0 with next_recommended_reps := n, updated_at := now } := by
  induction recs with
  | nil => simp at h
  | cons r rs ih =>
    by_cases hr : (r.user_id == uid) = true
    · rw [List.find?_cons_of_pos (p := fun r : WorkoutRecommendation => r.user_id == uid) _ hr] at h
      cases h
      unfold updateFirstRecommendation
      rw [if_pos hr]
      exact List.find?_cons_of_pos (p := fun r : WorkoutRecommendation => r.user_id == uid) _ hr
    · rw [List.find?_cons_of_neg (p := fun r : WorkoutRecommendation => r.user_id == uid) _ hr] at h
      unfold updateFirstRecommendation
      rw [if_neg hr]
      rw [List.find?_cons_of_neg (p := fun r : WorkoutRecommendation => r.user_id == uid) _ hr]
      exact ih h

/-- C9: the two multi-record writes are atomic.  If the start-session or
end-session request fails, the store is unchanged (nothing was committed);
if start succeeds, both the session and its paired exercise are in the new
store; if end succeeds, both the ended session and the recommendation row
holding the returned value are in the new store. -/
theorem C9_atomicity (db : DB) (now uid sid : Nat) (reps : Int)
    (name : String) :
    (∀ e, (startSessionRun db now uid reps name).2 = .error e →
       (startSessionRun db now uid reps name).1 = db) ∧
    (∀ db' s, startSession db now uid reps name = .ok (db', s) →
       s ∈ db'.sessions ∧
       ∃ e ∈ db'.exercises, e.session_id = s.id ∧ e.completed_reps = none) ∧
    (∀ e, (endSessionRun db now sid).2 = .error e →
       (endSessionRun db now sid).1 = db) ∧
    (∀ db' s n, end_workout_session db now sid = .ok (db', s, n) →
       s ∈ db'.sessions ∧ s.is_active = false ∧
       ∃ r ∈ db'.recommendations, r.user_id = s.user_id ∧
         r.next_recommended_reps = n) := by
  refine ⟨?_, ?_, ?_, ?_⟩
  · intro e he
    unfold startSessionRun at he ⊢
    cases hss : startSession db now uid reps name with
    | error e' => simp [hss]
    | ok r =>
      rw [hss] at he
      cases r
      simp at he
  · intro db' s hok
    obtain ⟨-, hs, hsess, hexs⟩ := startSession_ok_inv _ _ _ _ _ _ _ hok
    constructor
    · rw [hsess]
      exact List.mem_append_right _ (List.mem_singleton_self _)
    · rw [hexs]
      exact ⟨_, List.mem_append_right _ (List.mem_singleton_self _), rfl, rfl⟩
  · intro e he
    unfold endSessionRun at he ⊢
    cases hes : end_workout_session db now sid with
    | error e' => simp [hes]
    | ok r =>
      rw [hes] at he
      obtain ⟨db'', s', n'⟩ := r
      simp at he
  · intro db' s n hok
    obtain ⟨s0, ex, cr, hfs, hact, hex, hcr, hn, hs, hsess, hupd, hnew⟩ :=
      end_workout_session_ok_inv _ _ _ _ _ _ hok
    have hid := List.find?_some hfs
    have hmem0 : s0 ∈ db.sessions := List.mem_of_find?_eq_some hfs
    refine ⟨?_, by rw [hs], ?_⟩
    · rw [hsess, hs]
      exact List.mem_map.mpr ⟨s0, hmem0, by simp [hid]⟩
    · have hsuid : s.user_id = s0.user_id := by rw [hs]
      cases hrec : findRecommendation db s0.user_id with
      | some r0 =>
        rw [hupd r0 hrec]
        have := updateFirstRecommendation_find? db.recommendations s0.user_id n now r0 hrec
        refine ⟨_, List.mem_of_find?_eq_some this, ?_, rfl⟩
        have hp := List.find?_some this
        rw [hsuid]
        exact beq_iff_eq.mp hp
      | none =>
        rw [hnew hrec]
        exact ⟨_, List.mem_append_right _ (List.mem_singleton_self _),
          by rw [hsuid], rfl⟩

/-- Witness for C9: a failed second start on `dbStarted` leaves the store
unchanged, and ending the session of `dbLogged` commits both the ended
session and the recommendation with the returned value 12. -/
theorem C9_atomicity_witness :
    (startSessionRun dbStarted 6 1 8 "Sit-ups").1 = dbStarted ∧
    ({ id := 1, user_id := 1, started_at := 5, ended_at := some 20
       is_active := false } : WorkoutSession) ∈ dbEnded.sessions ∧
    ∃ r ∈ dbEnded.recommendations, r.user_id = 1 ∧
      r.next_recommended_reps = 12 := by
  have h1 := (C9_atomicity dbStarted 6 1 1 8 "Sit-ups").1
    (.api (.activeSessionExists 1 1)) rfl
  have h2 := (C9_atomicity dbLogged 20 1 1 10 "Sit-ups").2.2.2 dbEnded
    { id := 1, user_id := 1, started_at := 5, ended_at := some 20
      is_active := false } 12 rfl
  exact ⟨h1, h2.1, h2.2.2⟩

/-- C10: on every successful end-session call, the returned
`next_recommended_reps` equals the value stored in the user's
recommendation record immediately after the call. -/
theorem C10_returned_matches_stored (db : DB) (now sid : Nat) (db' : DB)
    (s : WorkoutSession) (n : Int)
    (h : end_workout_session db now sid = .ok (db', s, n)) :
    ∃ r, findRecommendation db' s.user_id = some r ∧
      r.next_recommended_reps = n := by
  obtain ⟨s0, ex, cr, hfs, hact, hex, hcr, hn, hs, hsess, hupd, hnew⟩ :=
    end_workout_session_ok_inv _ _ _ _ _ _ h
  have hsuid : s.user_id = s0.user_id := by rw [hs]
  cases hrec : findRecommendation db s0.user_id with
  | some r0 =>
    refine ⟨{ r0 with next_recommended_reps := n, updated_at := now }, ?_, rfl⟩
    rw [findRecommendation, hupd r0 hrec, hsuid]
    exact updateFirstRecommendation_find? db.recommendations s0.user_id n now r0
      (by rw [findRecommendation] at hrec; exact hrec)
  | none =>
    refine ⟨{ id := db.next_recommendation_id, user_id := s0.user_id
              next_recommended_reps := n, updated_at := now }, ?_, rfl⟩
    rw [findRecommendation, hnew hrec, hsuid, List.find?_append]
    rw [findRecommendation] at hrec
    rw [hrec]
    simp

/-- Witness for C10: ending the session of `dbLogged` returns 12 and the
stored recommendation for user 1 holds 12. -/
theorem C10_returned_matches_stored_witness :
    ∃ r, findRecommendation dbEnded 1 = some r ∧
      r.next_recommended_reps = 12 :=
  C10_returned_matches_stored dbLogged 20 1 dbEnded
    { id := 1, user_id := 1, started_at := 5, ended_at := some 20
      is_active := false } 12 rfl

/-! ### The recommendation read path -/

theorem lastEnded_exercise_logged (db : DB) (uid : Nat)
    (hwf : exercisesLogged db = true) (ex : Exercise)
    (hex : (lastEndedSession db uid).bind (fun s => findExercise db s.id) =
      some ex) : ∃ cr, ex.completed_reps = some cr := by
  cases hls : lastEndedSession db uid with
  | none => rw [hls] at hex; simp at hex
  | some s =>
    rw [hls] at hex
    simp only [Option.some_bind] at hex
    obtain ⟨hmem, -, hact⟩ := lastEndedSession_mem db uid s hls
    exact Option.isSome_iff_exists.mp
      (completed_isSome_of_ended db hwf s hmem hact ex hex)

theorem recommendedValue_isOk (db : DB) (uid : Nat)
    (hwf : exercisesLogged db = true) :
    ∃ n, recommendedValue db uid = .ok n := by
  cases hrec : findRecommendation db uid with
  | some r =>
    exact ⟨r.next_recommended_reps, by simp [recommendedValue, hrec]⟩
  | none =>
    cases hex : (lastEndedSession db uid).bind (fun s => findExercise db s.id) with
    | none => exact ⟨10, by simp [recommendedValue, hrec, hex]⟩
    | some ex =>
      obtain ⟨cr, hcr⟩ := lastEnded_exercise_logged db uid hwf ex hex
      exact ⟨calculate_next_reps ex.assigned_reps cr,
        by simp [recommendedValue, hrec, hex, hcr]⟩

theorem reasonTrend_isOk (db : DB) (uid : Nat)
    (hwf : exercisesLogged db = true) :
    ∃ reason trend, reasonTrend db uid = .ok (reason, trend) := by
  cases hex : (lastEndedSession db uid).bind (fun s => findExercise db s.id) with
  | none =>
    exact ⟨"Starting recommendation", "new", by simp [reasonTrend, hex]⟩
  | some ex =>
    obtain ⟨cr, hcr⟩ := lastEnded_exercise_logged db uid hwf ex hex
    by_cases hc : cr ≥ ex.assigned_reps
    · exact ⟨"Completed all reps in last session", "improving",
        by simp [reasonTrend, hex, hcr, hc]⟩
    · exact ⟨"Did not complete all reps in last session", "adjusting",
        by simp [reasonTrend, hex, hcr, hc]⟩

theorem get_recommendation_view (db : DB) (uid : Nat)
    (hu : (findUser db uid).isSome) (hwf : exercisesLogged db = true) :
    ∃ n reason trend, recommendedValue db uid = .ok n ∧
      reasonTrend db uid = .ok (reason, trend) ∧
      get_recommendation db uid =
        .ok { recommended_reps := n, reason := reason, trend := trend
              total_increase := totalIncrease db uid n
              sessions_count := (endedSessions db uid).length } := by
  obtain ⟨u, hu'⟩ := Option.isSome_iff_exists.mp hu
  obtain ⟨n, hn⟩ := recommendedValue_isOk db uid hwf
  obtain ⟨reason, trend, hrt⟩ := reasonTrend_isOk db uid hwf
  refine ⟨n, reason, trend, hn, hrt, ?_⟩
  unfold get_recommendation
  rw [hu', hn, hrt]

theorem endedSessions_nil_of_userSessions_nil (db : DB) (uid : Nat)
    (h : userSessions db uid = []) : endedSessions db uid = [] := by
  rw [endedSessions, List.filter_eq_nil_iff]
  intro t ht
  have := List.filter_eq_nil_iff.mp h t ht
  simp_all

/-- C2: `get_recommendation` resolves the reported value in this order:
a stored recommendation's value if one exists; else `calculate_next_reps`
on the last ended session's exercise when such a session with a logged
exercise exists; else 10.  In particular a user with no sessions and no
stored recommendation is reported 10. -/
theorem C2_recommended_resolution (db : DB) (uid : Nat)
    (hu : (findUser db uid).isSome) (hwf : exercisesLogged db = true) :
    ∃ v, get_recommendation db uid = .ok v ∧
      (∀ r, findRecommendation db uid = some r →
         v.recommended_reps = r.next_recommended_reps) ∧
      (findRecommendation db uid = none →
         (∀ s ex cr, lastEndedSession db uid = some s →
            findExercise db s.id = some ex → ex.completed_reps = some cr →
            v.recommended_reps = calculate_next_reps ex.assigned_reps cr) ∧
         ((lastEndedSession db uid).bind (fun s => findExercise db s.id) = none →
            v.recommended_reps = 10)) ∧
      (userSessions db uid = [] → findRecommendation db uid = none →
         v.recommended_reps = 10) := by
  obtain ⟨n, reason, trend, hn, hrt, hget⟩ := get_recommendation_view db uid hu hwf
  refine ⟨_, hget, ?_, ?_, ?_⟩
  · intro r hr
    simp only [recommendedValue, hr] at hn
    exact (Except.ok.inj hn).symm
  · intro hrec
    constructor
    · intro s ex cr hls hex hcr
      simp only [recommendedValue, hrec, hls, Option.some_bind, hex, hcr] at hn
      exact (Except.ok.inj hn).symm
    · intro hnone
      simp only [recommendedValue, hrec, hnone] at hn
      exact (Except.ok.inj hn).symm
  · intro hus hrec
    have hends := endedSessions_nil_of_userSessions_nil db uid hus
    have hls : lastEndedSession db uid = none := by
      rw [lastEndedSession, hends]
      rfl
    simp only [recommendedValue, hrec, hls, Option.none_bind] at hn
    exact (Except.ok.inj hn).symm

/-- Witness for C2: in a store holding just one user, the reported value
is 10. -/
theorem C2_recommended_resolution_witness :
    (findUser dbOneUser 1).isSome ∧ exercisesLogged dbOneUser = true ∧
    ∃ v, get_recommendation dbOneUser 1 = .ok v ∧
      (∀ r, findRecommendation dbOneUser 1 = some r →
         v.recommended_reps = r.next_recommended_reps) ∧
      (findRecommendation dbOneUser 1 = none →
         (∀ s ex cr, lastEndedSession dbOneUser 1 = some s →
            findExercise dbOneUser s.id = some ex →
            ex.completed_reps = some cr →
            v.recommended_reps = calculate_next_reps ex.assigned_reps cr) ∧
         ((lastEndedSession dbOneUser 1).bind
             (fun s => findExercise dbOneUser s.id) = none →
            v.recommended_reps = 10)) ∧
      (userSessions dbOneUser 1 = [] → findRecommendation dbOneUser 1 = none →
         v.recommended_reps = 10) :=
  ⟨by decide, by decide, C2_recommended_resolution dbOneUser 1 (by decide) (by decide)⟩

/-- C6: in `get_recommendation`, `sessions_count` is the number of the
user's ended sessions; `total_increase` is 0 when there is no ended
session, and otherwise the reported recommended value minus the assigned
reps of the chronologically first ended session (minimal start timestamp,
selected by `started_at` ascending). -/
theorem C6_progression_metrics (db : DB) (uid : Nat)
    (hu : (findUser db uid).isSome) (hwf : exercisesLogged db = true) :
    ∃ v, get_recommendation db uid = .ok v ∧
      v.sessions_count = (endedSessions db uid).length ∧
      (endedSessions db uid = [] → v.total_increase = 0) ∧
      (∀ s ex, firstEndedSession db uid = some s →
         findExercise db s.id = some ex →
         v.total_increase = v.recommended_reps - ex.assigned_reps ∧
         s ∈ endedSessions db uid ∧
         ∀ t ∈ endedSessions db uid, s.started_at ≤ t.started_at) := by
  obtain ⟨n, reason, trend, hn, hrt, hget⟩ := get_recommendation_view db uid hu hwf
  refine ⟨_, hget, rfl, ?_, ?_⟩
  · intro hends
    have hfs : firstEndedSession db uid = none := by
      rw [firstEndedSession, hends]
      rfl
    show totalIncrease db uid n = 0
    rw [totalIncrease, hfs]
    rfl
  · intro s ex hfs hex
    refine ⟨?_, selectFirst_mem _ _ _ hfs, ?_⟩
    · show totalIncrease db uid n = n - ex.assigned_reps
      rw [totalIncrease, hfs]
      simp only [Option.some_bind, hex]
    · intro t ht
      have := selectFirst_is_max _ _ _ hfs t ht
      omega

/-- Witness for C6: in `dbEnded` (one ended session, assigned 10,
recommendation 12) the metrics are `sessions_count = 1` and
`total_increase = 12 - 10`. -/
theorem C6_progression_metrics_witness :
    (findUser dbEnded 1).isSome ∧ exercisesLogged dbEnded = true ∧
    ∃ v, get_recommendation dbEnded 1 = .ok v ∧
      v.sessions_count = (endedSessions dbEnded 1).length ∧
      (endedSessions dbEnded 1 = [] → v.total_increase = 0) ∧
      (∀ s ex, firstEndedSession dbEnded 1 = some s →
         findExercise dbEnded s.id = some ex →
         v.total_increase = v.recommended_reps - ex.assigned_reps ∧
         s ∈ endedSessions dbEnded 1 ∧
         ∀ t ∈ endedSessions dbEnded 1, s.started_at ≤ t.started_at) :=
  ⟨by decide, by decide, C6_progression_metrics dbEnded 1 (by decide) (by decide)⟩

/-- C7: `get_recommendation` derives reason and trend from the most
recently ended session (the selected session maximizes the end-timestamp
key over the user's ended sessions): no ended session gives
"Starting recommendation"/"new"; completed ≥ assigned gives
"Completed all reps in last session"/"improving"; completed < assigned
gives "Did not complete all reps in last session"/"adjusting". -/
theorem C7_reason_trend (db : DB) (uid : Nat)
    (hu : (findUser db uid).isSome) (hwf : exercisesLogged db = true) :
    ∃ v, get_recommendation db uid = .ok v ∧
      (∀ s, lastEndedSession db uid = some s →
         s ∈ endedSessions db uid ∧
         ∀ t ∈ endedSessions db uid, endedKey t ≤ endedKey s) ∧
      (lastEndedSession db uid = none →
         v.reason = "Starting recommendation" ∧ v.trend = "new") ∧
      (∀ s ex cr, lastEndedSession db uid = some s →
         findExercise db s.id = some ex → ex.completed_reps = some cr →
         (cr ≥ ex.assigned_reps →
            v.reason = "Completed all reps in last session" ∧
            v.trend = "improving") ∧
         (cr < ex.assigned_reps →
            v.reason = "Did not complete all reps in last session" ∧
            v.trend = "adjusting")) := by
  obtain ⟨n, reason, trend, hn, hrt, hget⟩ := get_recommendation_view db uid hu hwf
  refine ⟨_, hget, ?_, ?_, ?_⟩
  · intro s hls
    exact ⟨selectFirst_mem _ _ _ hls, selectFirst_is_max _ _ _ hls⟩
  · intro hls
    simp only [reasonTrend, hls, Option.none_bind] at hrt
    injection Except.ok.inj hrt with hr ht
    exact ⟨hr.symm, ht.symm⟩
  · intro s ex cr hls hex hcr
    constructor
    · intro hc
      simp only [reasonTrend, hls, Option.some_bind, hex, hcr] at hrt
      rw [if_pos hc] at hrt
      injection Except.ok.inj hrt with hr ht
      exact ⟨hr.symm, ht.symm⟩
    · intro hc
      simp only [reasonTrend, hls, Option.some_bind, hex, hcr] at hrt
      rw [if_neg (not_le.mpr hc)] at hrt
      injection Except.ok.inj hrt with hr ht
      exact ⟨hr.symm, ht.symm⟩

/-- Witness for C7: in `dbEnded` the last ended session completed 10 of 10,
so the trend is "improving". -/
theorem C7_reason_trend_witness :
    (findUser dbEnded 1).isSome ∧ exercisesLogged dbEnded = true ∧
    ∃ v, get_recommendation dbEnded 1 = .ok v ∧
      (∀ s, lastEndedSession dbEnded 1 = some s →
         s ∈ endedSessions dbEnded 1 ∧
         ∀ t ∈ endedSessions dbEnded 1, endedKey t ≤ endedKey s) ∧
      (lastEndedSession dbEnded 1 = none →
         v.reason = "Starting recommendation" ∧ v.trend = "new") ∧
      (∀ s ex cr, lastEndedSession dbEnded 1 = some s →
         findExercise dbEnded s.id = some ex → ex.completed_reps = some cr →
         (cr ≥ ex.assigned_reps →
            v.reason = "Completed all reps in last session" ∧
            v.trend = "improving") ∧
         (cr < ex.assigned_reps →
            v.reason = "Did not complete all reps in last session" ∧
            v.trend = "adjusting")) :=
  ⟨by decide, by decide, C7_reason_trend dbEnded 1 (by decide) (by decide)⟩

end Workout
